import Mathlib

/-!
Shallow embedding of `astrbot_plugin_link_reader` (src/main.py), the
link-content extraction pipeline of an AstrBot plugin.  Strings are modelled
as `List Char` (Python `str`), network and browser interactions as explicit
oracles collected in a `World` structure, and every spot where the Python
code can raise is modelled with `Except Err`; a `try/except` block becomes an
explicit `match` on the `Except` value.  Machine-independent behaviour
(string scanning, the regexes actually used, line filtering, truncation) is
translated operation by operation from the source.
-/

namespace LinkReader

/-- Error/exception payload: the textual message `str(e)` carried by a Python
exception. -/
abbrev Err := List Char

/-- Python `str.strip()` whitespace test (space, tab, newline, carriage
return, vertical tab, form feed). -/
def pyIsSpace (c : Char) : Bool :=
  c = ' ' || c = '\t' || c = '\n' || c = '\r' || c.toNat = 11 || c.toNat = 12

/-- Drop trailing characters satisfying the whitespace test (helper for
`pyStrip`). -/
def dropTrail (l : List Char) : List Char :=
  (l.reverse.dropWhile pyIsSpace).reverse

/-- Python `str.strip()`: remove leading and trailing whitespace. -/
def pyStrip (l : List Char) : List Char :=
  dropTrail (l.dropWhile pyIsSpace)

/-- Python `str.split(sep)` for a single-character separator: split on every
occurrence, keeping empty pieces (`"".split` gives one empty piece). -/
def splitOnChar (sep : Char) : List Char → List (List Char)
  | [] => [[]]
  | c :: rest =>
    if c = sep then [] :: splitOnChar sep rest
    else
      match splitOnChar sep rest with
      | [] => [[c]]
      | l :: ls => (c :: l) :: ls

/-- Python `sep.join(pieces)` for a single-character separator. -/
def joinWith (sep : Char) : List (List Char) → List Char
  | [] => []
  | [l] => l
  | l :: l' :: ls => l ++ sep :: joinWith sep (l' :: ls)

/-- Model of `text.split('\n')` as used throughout the plugin. -/
def splitNl (t : List Char) : List (List Char) := splitOnChar '\n' t

/-- Model of `'\n'.join(lines)` as used throughout the plugin. -/
def joinNl (ls : List (List Char)) : List Char := joinWith '\n' ls

/-- Python substring test `needle in hay`. -/
def isSubOf (needle : List Char) : List Char → Bool
  | [] => needle.isEmpty
  | c :: rest => needle.isPrefixOf (c :: rest) || isSubOf needle rest

/-- Truncation marker appended by `_clean_text` (src/main.py:121). -/
def tMark : List Char := "...(内容过长已截断)".data

/-- Boilerplate denylist of `_clean_text` (src/main.py:112). -/
def blacklist : List (List Char) :=
  (["沪ICP备", "公网安备", "经营许可证", "版权所有", "©", "Copyright",
    "下载APP", "打开APP"]).map String.data

/-- Line predicate of `_clean_text` (src/main.py:116): a stripped line is kept
unless it is empty, shorter than two characters, or contains a denylist
substring. -/
def keepLine (l : List Char) : Bool :=
  !(l.isEmpty || l.length < 2 || blacklist.any (fun b => isSubOf b l))

/-- Length bounding step of `_clean_text` (src/main.py:120-121): truncate to
`maxLen` characters and append the marker when the text is too long. -/
def truncateMarked (maxLen : Nat) (r : List Char) : List Char :=
  if maxLen < r.length then r.take maxLen ++ tMark else r

/-- Function `_clean_text` (src/main.py:109-122): split into lines, strip each line,
drop empty/short/denylisted lines, rejoin, and truncate to `maxLen`
characters appending `tMark` when truncation occurs.  `maxLen` is the
`max_content_length` configuration value (default 2000). -/
def _clean_text (maxLen : Nat) (text : List Char) : List Char :=
  truncateMarked maxLen (joinNl (((splitNl text).map pyStrip).filter keepLine))

/-- Truncation really bounds the length. -/
theorem truncateMarked_length_bound (maxLen : Nat) (r : List Char) :
    (truncateMarked maxLen r).length ≤ maxLen + tMark.length := by
  unfold truncateMarked
  split
  · rw [List.length_append, List.length_take]; omega
  · next h => omega

/-- Claim C1 (amended): every text produced by `_clean_text` has length at
most `maxLen` plus the length of the truncation marker.  (The original claim
extended this bound to the music pipeline, which never truncates; see the
counterexample.) -/
theorem clean_text_length_bound (maxLen : Nat) (text : List Char) :
    (_clean_text maxLen text).length ≤ maxLen + tMark.length :=
  truncateMarked_length_bound maxLen _

/-- Detection of CJK ideographs, `_contains_chinese` (src/main.py:71-76):
some character lies in the range U+4E00 .. U+9FFF. -/
def _contains_chinese (text : List Char) : Bool :=
  text.any (fun c => 0x4e00 ≤ c.toNat && c.toNat ≤ 0x9fff)

/-- Python `str.isdigit()` for the ASCII digits that occur in lyrics: a
non-empty all-digit string. -/
def pyIsDigit (l : List Char) : Bool :=
  !l.isEmpty && l.all Char.isDigit

/-- First `replace` of `_filter_lyrics` (src/main.py:81): rewrite each literal
backslash-n two-character sequence to a real newline, left to right. -/
def unescapeNl : List Char → List Char
  | '\\' :: 'n' :: rest => '\n' :: unescapeNl rest
  | c :: rest => c :: unescapeNl rest
  | [] => []

/-- Second `replace` of `_filter_lyrics` (src/main.py:81): delete each literal
backslash-r two-character sequence, left to right. -/
def unescapeCr : List Char → List Char
  | '\\' :: 'r' :: rest => unescapeCr rest
  | c :: rest => c :: unescapeCr rest
  | [] => []

/-- Match the timestamp regex `\[\d+:\d+\.\d+\]` at the head of the list
(src/main.py:88); on success return the remainder after the closing bracket.
The three `\d+` groups are greedy, and the characters that follow them in the
pattern are never digits, so plain maximal digit runs are faithful. -/
def matchTs : List Char → Option (List Char)
  | '[' :: r =>
    let d1 := r.takeWhile Char.isDigit
    let r1 := r.dropWhile Char.isDigit
    if d1.isEmpty then none else
    match r1 with
    | ':' :: r2 =>
      let d2 := r2.takeWhile Char.isDigit
      let r3 := r2.dropWhile Char.isDigit
      if d2.isEmpty then none else
      match r3 with
      | '.' :: r4 =>
        let d3 := r4.takeWhile Char.isDigit
        let r5 := r4.dropWhile Char.isDigit
        if d3.isEmpty then none else
        match r5 with
        | ']' :: r6 => some r6
        | _ => none
      | _ => none
    | _ => none
  | _ => none

/-- Fuel-indexed scan for `re.sub(r'\[\d+:\d+\.\d+\]', '', line)`: delete
every non-overlapping leftmost timestamp tag.  Fuel keeps the recursion
structural; each step consumes at least one character, so fuel equal to the
input length never runs out. -/
def stripTsGo : Nat → List Char → List Char
  | 0, l => l
  | _ + 1, [] => []
  | n + 1, c :: rest =>
    match matchTs (c :: rest) with
    | some r => stripTsGo n r
    | none => c :: stripTsGo n rest

/-- Model of `re.sub(r'\[\d+:\d+\.\d+\]', '', line)` (src/main.py:88). -/
def stripTs (l : List Char) : List Char := stripTsGo l.length l

/-- Whether a raw `[digits:digits.digits]` timestamp tag occurs anywhere in
the text (the property the spec asserts about final music payloads). -/
def hasTsTag : List Char → Bool
  | [] => false
  | c :: rest => (matchTs (c :: rest)).isSome || hasTsTag rest

/-- Lyric-marker keywords that exempt a metadata-looking line from removal
(src/main.py:94). -/
def lyricKeywords : List (List Char) :=
  (["歌词", "Lyric", "LRC"]).map String.data

/-- Metadata-line test of `_filter_lyrics` (src/main.py:93): a colon
(half- or full-width) in a line shorter than 30 characters, or a
space-hyphen-space separator anywhere. -/
def metaCond (line : List Char) : Bool :=
  ((line.contains ':' || line.contains '：') && line.length < 30) ||
    isSubOf " - ".data line

/-- Per-line processing of `_filter_lyrics` (src/main.py:84-104), producing
the zero or more output lines contributed by one raw line: strip, delete
timestamp tags, drop empty or fully bracketed lines, drop keyword-free
metadata lines, and split space-separated Chinese lines into parts when
every part is short. -/
def processLine (line0 : List Char) : List (List Char) :=
  let l1 := pyStrip line0
  if l1.isEmpty then [] else
  let line := pyStrip (stripTs l1)
  if line.isEmpty then []
  else if line.head? = some '[' ∧ line.getLast? = some ']' then []
  else if metaCond line ∧ !(lyricKeywords.any (fun kw => isSubOf kw line)) then []
  else if line.contains ' ' ∧ _contains_chinese line then
    let parts := ((splitOnChar ' ' line).map pyStrip).filter (fun p => !p.isEmpty)
    if parts.all (fun p => p.length < 20) then parts else [line]
  else [line]

/-- Concatenation of per-line outputs (the `filtered_lines` accumulator with
its `extend`/`append` calls, src/main.py:83-104). -/
def concatLines (f : List Char → List (List Char)) : List (List Char) → List (List Char)
  | [] => []
  | x :: xs => f x ++ concatLines f xs

/-- Function `_filter_lyrics` (src/main.py:78-107): unescape, split into lines,
process each line, then keep only lines longer than one character that are
not pure digit strings, and rejoin. -/
def _filter_lyrics (lyrics : List Char) : List Char :=
  if lyrics.isEmpty then [] else
  let ls := splitNl (unescapeCr (unescapeNl lyrics))
  let filtered := concatLines processLine ls
  joinNl (filtered.filter (fun l => 1 < l.length && !pyIsDigit l))

/-- Music domain table of `_is_music_site` (src/main.py:68). -/
def musicDomains : List (List Char) :=
  (["music.163.com", "y.qq.com", "kugou.com", "kuwo.cn", "163cn.tv",
    "url.cn", "163.fm"]).map String.data

/-- Function `_is_music_site` (src/main.py:66-69): substring membership of any music
domain in the FULL url string (not just its host). -/
def _is_music_site (url : List Char) : Bool :=
  musicDomains.any (fun d => isSubOf d url)

/-- Social platform table of `_fetch_url_content` (src/main.py:279). -/
def socialPlatforms : List (List Char) :=
  (["xiaohongshu.com", "zhihu.com", "weibo.com", "bilibili.com",
    "douyin.com", "lofter.com"]).map String.data

/-- Model of `urlparse(url).netloc` for the `http://`/`https://` urls produced by the
plugin's url regex: the text between the scheme separator and the next
`/`, `?` or `#`. -/
def pyNetloc (url : List Char) : List Char :=
  if ("https://".data).isPrefixOf url then
    (url.drop 8).takeWhile (fun c => c ≠ '/' && c ≠ '?' && c ≠ '#')
  else if ("http://".data).isPrefixOf url then
    (url.drop 7).takeWhile (fun c => c ≠ '/' && c ≠ '?' && c ≠ '#')
  else []

/-- The three routing categories of `_fetch_url_content`. -/
inductive Category where
  | music
  | social
  | generic
deriving DecidableEq

/-- Routing decision of `_fetch_url_content` (src/main.py:275-281): music if
`_is_music_site` matches the full url, else social when a social platform is
a substring of the host and Playwright is available, else generic. -/
def classifyCategory (hasPlaywright : Bool) (url : List Char) : Category :=
  if _is_music_site url then .music
  else if socialPlatforms.any (fun sp => isSubOf sp (pyNetloc url)) && hasPlaywright then .social
  else .generic

/-- Leftmost occurrence of the literal `pat` followed by a non-empty maximal
run of characters satisfying `pred`; returns that run (the capture group of
patterns such as `id=(\d+)`, src/main.py:136).  When `pat` occurs without a
following `pred` character the regex engine keeps scanning, as does this
function. -/
def findAfter (pat : List Char) (pred : Char → Bool) : List Char → Option (List Char)
  | [] => none
  | c :: rest =>
    if pat.isPrefixOf (c :: rest) then
      let run := ((c :: rest).drop pat.length).takeWhile pred
      if run.isEmpty then findAfter pat pred rest else some run
    else findAfter pat pred rest

/-- Like `findAfter` but requiring at least `n` run characters and capturing
exactly `n` of them (for `hash=([a-fA-F0-9]{32})`, src/main.py:181). -/
def findAfterN (pat : List Char) (pred : Char → Bool) (n : Nat) : List Char → Option (List Char)
  | [] => none
  | c :: rest =>
    if pat.isPrefixOf (c :: rest) then
      let run := ((c :: rest).drop pat.length).takeWhile pred
      if n ≤ run.length then some (run.take n) else findAfterN pat pred n rest
    else findAfterN pat pred n rest

/-- Netease track id extraction: `re.search(r'id=(\d+)')` or
`re.search(r'song/(\d+)')` (src/main.py:136). -/
def neteaseId (u : List Char) : Option (List Char) :=
  match findAfter "id=".data Char.isDigit u with
  | some r => some r
  | none => findAfter "song/".data Char.isDigit u

/-- QQ music mid extraction: `songmid=([a-zA-Z0-9]+)` or
`songDetail/([a-zA-Z0-9]+)` (src/main.py:153). -/
def qqMid (u : List Char) : Option (List Char) :=
  match findAfter "songmid=".data Char.isAlphanum u with
  | some r => some r
  | none => findAfter "songDetail/".data Char.isAlphanum u

/-- Kuwo music id extraction: `mid=(\d+)` or `musicId=(\d+)`
(src/main.py:168). -/
def kuwoMid (u : List Char) : Option (List Char) :=
  match findAfter "mid=".data Char.isDigit u with
  | some r => some r
  | none => findAfter "musicId=".data Char.isDigit u

/-- Character class `[a-fA-F0-9]` of the Kugou hash pattern. -/
def isHexCh (c : Char) : Bool :=
  c.isDigit || (97 ≤ c.toNat && c.toNat ≤ 102) || (65 ≤ c.toNat && c.toNat ≤ 70)

/-- Model of `str.lower()` (ASCII case folding is what the urls involved contain). -/
def pyLower (l : List Char) : List Char := l.map Char.toLower

/-- Kugou hash extraction from the lowercased url:
`hash=([a-fA-F0-9]{32})` (src/main.py:181). -/
def kugouHash (u : List Char) : Option (List Char) :=
  findAfterN "hash=".data isHexCh 32 u

/-- Short-link domain table of `_handle_music_direct_api`
(src/main.py:130). -/
def shortLinkDomains : List (List Char) :=
  (["163cn.tv", "url.cn", "163.fm"]).map String.data

/-- Title-suffix alternation of `_fallback_xiaojiang_search`
(src/main.py:204): does one of the regex alternatives match this suffix of
the title through to the end?  The fixed platform names are anchored by `$`,
so they must equal the whole suffix; the `\|.*` and ` - 歌曲.*` alternatives
only need to start here (for the single-line titles `strip` produces). -/
def suffixAlt (s : List Char) : Bool :=
  s == " - 网易云音乐".data || s == " - QQ音乐".data ||
  s == " - 酷狗音乐".data || s == " - 酷我音乐".data ||
  s.head? == some '|' || (" - 歌曲".data).isPrefixOf s

/-- Deletion performed by the title-suffix `re.sub`: keep the prefix before
the leftmost position where the alternation matches. -/
def cutTitle : List Char → List Char
  | [] => []
  | c :: rest => if suffixAlt (c :: rest) then [] else c :: cutTitle rest

/-- Title normalization of `_fallback_xiaojiang_search` (src/main.py:204-205):
strip the platform suffix, strip whitespace, then drop a leading `歌曲：`. -/
def cleanTitle (t : List Char) : List Char :=
  let s := pyStrip (cutTitle t)
  if ("歌曲：".data).isPrefixOf s then s.drop ("歌曲：".data).length else s

/-- Environment of one resolution: the responses of every network/browser
interaction the pipeline can perform, with `Except Err` marking the spots
where the Python call can raise (timeout, connection error, parse error in
an awaited helper).  Values are the already-extracted data the code reads
out of the responses: JSON field accesses with `.get(..., default)` defaults
are folded into the oracle (a missing field is the default), and
BeautifulSoup text extraction from fetched html is folded into the
text-valued oracles, since the scraping/HTTP libraries are outside the
spec's scope. -/
structure World where
  /-- `session.head(url, allow_redirects=True)` for short links
  (src/main.py:131): the final url, or an exception. -/
  headRedirect : List Char → Except Err (List Char)
  /-- Netease lyric endpoint (src/main.py:139-145): HTTP status paired with
  the result of `resp.json()` reduced to the `lrc.lyric` and `tlyric.lyric`
  fields (empty when missing). -/
  neteaseGet : List Char → Except Err (Nat × Except Err (List Char × List Char))
  /-- QQ lyric endpoint (src/main.py:156-162): `resp.text()` may raise
  (outer), and the JSONP parse inside the inner `try` may fail (inner);
  success carries the `lyric` field (empty when missing). -/
  qqGet : List Char → Except Err (Except Err (List Char))
  /-- Kuwo lyric endpoint (src/main.py:171-176): the `data.lrclist` array
  reduced to its `lineLyric` strings. -/
  kuwoGet : List Char → Except Err (List (List Char))
  /-- Kugou search endpoint (src/main.py:184-186): response ignored. -/
  kugouGet : List Char → Except Err Unit
  /-- Title probe of the fallback (src/main.py:199-201): `soup.title.string`
  when a title tag exists, `none` otherwise; exceptions (timeout, a title
  tag whose string is None) on the error side. -/
  titleFetch : List Char → Except Err (Option (List Char))
  /-- xiaojiangclub search page (src/main.py:223-233): HTTP status and the
  `href` of the first `a.song-link` tag, if any. -/
  searchGet : List Char → Except Err (Nat × Option (List Char))
  /-- xiaojiangclub lyric page (src/main.py:238-249): text of the content
  container after removing script/style/nav chrome. -/
  lyricPageGet : List Char → Except Err (List Char)
  /-- `page.goto` + `page.content()` under Playwright (src/main.py:260-264),
  collapsing launch/navigation/content errors. -/
  pageContent : List Char → Except Err (List Char)
  /-- `page.screenshot` already base64-encoded (src/main.py:265-266). -/
  pageShot : List Char → Except Err (List Char)
  /-- `browser.close()` (src/main.py:267). -/
  browserClose : Except Err Unit
  /-- Plain `session.get` of the generic branch (src/main.py:296-300)
  reduced to the soup text after tag removal. -/
  genericGet : List Char → Except Err (List Char)
  /-- BeautifulSoup text extraction from rendered html, generic selector
  (src/main.py:290). -/
  soupText : List Char → List Char
  /-- BeautifulSoup text extraction from rendered html with the xiaohongshu
  `desc|note-content|text` selector (src/main.py:287-288). -/
  soupTextXhs : List Char → List Char
  /-- Module-level `HAS_PLAYWRIGHT` flag (src/main.py:13-17). -/
  hasPlaywright : Bool

/-- Plugin configuration fields the pipeline reads (src/main.py:31-36).  The
prompt template is its text split around the single `content` placeholder. -/
structure Config where
  enable : Bool
  maxLen : Nat
  tmplPre : List Char
  tmplPost : List Char

/-- Failure sentinel of the fallback search (src/main.py:214). -/
def failMsg : List Char := "音乐链接解析失败。".data

/-- Not-found sentinel of the fallback search (src/main.py:212). -/
def notFoundMsg (name : List Char) : List Char :=
  "识别到歌曲《".data ++ name ++ "》，但未能获取歌词正文。".data

/-- Success format of the fallback search (src/main.py:211). -/
def foundMsg (name c : List Char) : List Char :=
  "【歌词解析: ".data ++ name ++ "】\n来源: 小江音乐网\n\n".data ++ c

/-- Function `_search_xiaojiang` (src/main.py:216-253): search, follow the first
`song-link`, extract and lyric-filter the page; any exception or missing
piece yields `none` (the function's own `try/except` returns None). -/
def _search_xiaojiang (w : World) (song_name : List Char) : Option (List Char) :=
  match w.searchGet song_name with
  | .error _ => none
  | .ok (status, hrefOpt) =>
    if status ≠ 200 then none else
    match hrefOpt with
    | none => none
    | some href =>
      let target := if ("http".data).isPrefixOf href then href
                    else "https://xiaojiangclub.com".data ++ href
      match w.lyricPageGet target with
      | .error _ => none
      | .ok raw => some (_filter_lyrics raw)

/-- Keyword derivation of `_fallback_xiaojiang_search` (src/main.py:201-205):
the stripped page title (or the `未知歌曲` default when there is no title
tag) run through the title normalization. -/
def _fallback_keyword (topt : Option (List Char)) : List Char :=
  cleanTitle (match topt with
    | some t => pyStrip t
    | none => "未知歌曲".data)

/-- Result assembly of `_fallback_xiaojiang_search` (src/main.py:208-212):
search with the derived keyword; a non-empty hit is formatted, anything
else yields the not-found message naming the keyword (`if content:` treats
both `None` and the empty string as misses). -/
def _fallback_result (w : World) (topt : Option (List Char)) : List Char :=
  match _search_xiaojiang w (_fallback_keyword topt) with
  | some c =>
    if c.isEmpty then notFoundMsg (_fallback_keyword topt)
    else foundMsg (_fallback_keyword topt) c
  | none => notFoundMsg (_fallback_keyword topt)

/-- Body of `_fallback_xiaojiang_search` inside its `try` (src/main.py:
197-212): probe the title, derive the song name, search; exceptions of the
title probe propagate to the enclosing handler. -/
def _fallback_body (w : World) (url : List Char) : Except Err (List Char) :=
  match w.titleFetch url with
  | .error e => .error e
  | .ok topt => .ok (_fallback_result w topt)

/-- Function `_fallback_xiaojiang_search` (src/main.py:195-214): the body with its
catch-all handler returning the failure sentinel. -/
def _fallback_xiaojiang_search (w : World) (url : List Char) : List Char :=
  match _fallback_body w url with
  | .ok s => s
  | .error _ => failMsg

/-- Netease branch of `_handle_music_direct_api` (src/main.py:135-149):
`some` is an early `return`, `none` falls through to the fallback, `.error`
is an uncaught exception inside the branch. -/
def _netease_branch (w : World) (fu : List Char) : Except Err (Option (List Char)) :=
  match neteaseId fu with
  | none => .ok none
  | some sid =>
    match w.neteaseGet sid with
    | .error e => .error e
    | .ok (status, jres) =>
      if status = 200 then
        match jres with
        | .error e => .error e
        | .ok (lrc, tlrc) =>
          if lrc.isEmpty then .ok none
          else .ok (some ("【网易云解析】\n\n".data ++ _filter_lyrics lrc ++
            (if tlrc.isEmpty then []
             else "\n\n【翻译】\n".data ++ _filter_lyrics tlrc)))
      else .ok none

/-- QQ branch (src/main.py:152-164): the JSONP parse failure is swallowed by
the inner `try/except: pass` and falls through. -/
def _qq_branch (w : World) (fu : List Char) : Except Err (Option (List Char)) :=
  match qqMid fu with
  | none => .ok none
  | some mid =>
    match w.qqGet mid with
    | .error e => .error e
    | .ok (.error _) => .ok none
    | .ok (.ok lrc) =>
      if lrc.isEmpty then .ok none
      else .ok (some ("【QQ音乐解析】\n\n".data ++ _filter_lyrics lrc))

/-- Kuwo branch (src/main.py:167-177): joins the raw `lineLyric` strings
with newlines, with NO lyric filtering. -/
def _kuwo_branch (w : World) (fu : List Char) : Except Err (Option (List Char)) :=
  match kuwoMid fu with
  | none => .ok none
  | some mid =>
    match w.kuwoGet mid with
    | .error e => .error e
    | .ok lrcList =>
      if lrcList.isEmpty then .ok none
      else .ok (some ("【酷我音乐解析】\n\n".data ++ joinNl lrcList))

/-- Kugou branch (src/main.py:180-186): performs the request and ignores the
response body. -/
def _kugou_branch (w : World) (fu : List Char) : Except Err (Option (List Char)) :=
  match kugouHash (pyLower fu) with
  | none => .ok none
  | some h =>
    match w.kugouGet h with
    | .error e => .error e
    | .ok _ => .ok none

/-- Platform dispatch `elif` chain of `_handle_music_direct_api`
(src/main.py:135-186), keyed by substring tests on the resolved url. -/
def _music_branches (w : World) (fu : List Char) : Except Err (Option (List Char)) :=
  if isSubOf "music.163.com".data fu then _netease_branch w fu
  else if isSubOf "y.qq.com".data fu then _qq_branch w fu
  else if isSubOf "kuwo.cn".data fu then _kuwo_branch w fu
  else if isSubOf "kugou.com".data fu then _kugou_branch w fu
  else .ok none

/-- Short-link resolution step (src/main.py:129-132). -/
def _resolve_short (w : World) (url : List Char) : Except Err (List Char) :=
  if shortLinkDomains.any (fun d => isSubOf d url) then w.headRedirect url
  else .ok url

/-- Function `_handle_music_direct_api` (src/main.py:124-193): resolve short links,
try the platform branch, fall back to the xiaojiang search with the resolved
url on a miss (src/main.py:189), or with the ORIGINAL url from the exception
handler (src/main.py:191-193). -/
def _handle_music_direct_api (w : World) (url : List Char) : List Char :=
  match _resolve_short w url with
  | .error _ => _fallback_xiaojiang_search w url
  | .ok fu =>
    match _music_branches w fu with
    | .error _ => _fallback_xiaojiang_search w url
    | .ok (some s) => s
    | .ok none => _fallback_xiaojiang_search w fu

/-- Steps of `_get_screenshot_and_content` inside its `try`
(src/main.py:259-268), in source order: page content, screenshot, browser
close. -/
def _screenshot_body (w : World) (url : List Char) : Except Err (List Char × List Char) :=
  match w.pageContent url with
  | .error e => .error e
  | .ok h =>
    match w.pageShot url with
    | .error e => .error e
    | .ok s =>
      match w.browserClose with
      | .error e => .error e
      | .ok _ => .ok (h, s)

/-- Function `_get_screenshot_and_content` (src/main.py:255-271): `(None, None)` when
Playwright is missing or any step raises, otherwise both values. -/
def _get_screenshot_and_content (w : World) (url : List Char) :
    Option (List Char) × Option (List Char) :=
  if w.hasPlaywright then
    match _screenshot_body w url with
    | .error _ => (none, none)
    | .ok (h, s) => (some h, some s)
  else (none, none)

/-- Generic branch of `_fetch_url_content` (src/main.py:293-302): plain GET
plus cleaning, with the catch-all handler producing the error string. -/
def _generic_fetch (cfg : Config) (w : World) (url : List Char) :
    Except Err (List Char × Option (List Char)) :=
  match w.genericGet url with
  | .ok raw => .ok (_clean_text cfg.maxLen raw, none)
  | .error e => .ok ("网页解析出错: ".data ++ e, none)

/-- Function `_fetch_url_content` (src/main.py:273-302): route by category; social
rendering falls through to the generic fetch when no html came back. -/
def _fetch_url_content (cfg : Config) (w : World) (url : List Char) :
    Except Err (List Char × Option (List Char)) :=
  match classifyCategory w.hasPlaywright url with
  | .music => .ok (_handle_music_direct_api w url, none)
  | .social =>
    match _get_screenshot_and_content w url with
    | (some html, shot) =>
      let content := if isSubOf "xiaohongshu.com".data url then w.soupTextXhs html
                     else w.soupText html
      .ok (_clean_text cfg.maxLen content, shot)
    | (none, _) => _generic_fetch cfg w url
  | .generic => _generic_fetch cfg w url

/-- Projection of the payload text, defined for statements about "the final
text returned by the resolution pipeline". -/
def resolvedText (cfg : Config) (w : World) (url : List Char) : List Char :=
  match _fetch_url_content cfg w url with
  | .ok (t, _) => t
  | .error _ => []

/-- Image block appended after an injection when a screenshot was captured
(src/main.py:317). -/
def imgPre : List Char := "\n(附带页面截图参考)\n图片：data:image/jpeg;base64,".data

/-- Hook `on_llm_request` (src/main.py:304-318) acting on the request prompt: no
change when disabled, when no url is found by the url regex (`findall` is
the compiled pattern's match list), or when the fetched content is empty;
otherwise the formatted content, and then the image block when a screenshot
was captured, are appended to the prompt.  `_fetch_url_content` is awaited
outside any `try`, so its exceptions would propagate (`.error`). -/
def on_llm_request (cfg : Config) (w : World)
    (findall : List Char → List (List Char)) (msg prompt : List Char) :
    Except Err (List Char) :=
  if cfg.enable then
    match findall msg with
    | [] => .ok prompt
    | url :: _ =>
      match _fetch_url_content cfg w url with
      | .error e => .error e
      | .ok (content, shot) =>
        if content.isEmpty then .ok prompt
        else
          let p1 := prompt ++ cfg.tmplPre ++ content ++ cfg.tmplPost
          .ok (match shot with
            | some s => p1 ++ imgPre ++ s
            | none => p1)
  else .ok prompt

/-! Helper lemmas about the string primitives. -/

theorem splitOnChar_ne_nil (sep : Char) (t : List Char) : splitOnChar sep t ≠ [] := by
  induction t with
  | nil => simp [splitOnChar]
  | cons c rest ih =>
    unfold splitOnChar
    split
    · simp
    · split <;> simp

theorem joinWith_splitOnChar (sep : Char) (t : List Char) :
    joinWith sep (splitOnChar sep t) = t := by
  induction t with
  | nil => rfl
  | cons c rest ih =>
    unfold splitOnChar
    by_cases h : c = sep
    · simp only [h, if_true]
      obtain ⟨l, ls, hE⟩ := List.exists_cons_of_ne_nil (splitOnChar_ne_nil sep rest)
      rw [hE] at ih ⊢
      simp only [joinWith, List.nil_append]
      rw [ih]
    · simp only [h, if_false]
      obtain ⟨l, ls, hE⟩ := List.exists_cons_of_ne_nil (splitOnChar_ne_nil sep rest)
      rw [hE] at ih ⊢
      cases ls with
      | nil => simp only [joinWith] at ih ⊢; rw [ih]
      | cons l' ls' =>
        simp only [joinWith, List.cons_append] at ih ⊢
        rw [ih]

theorem not_sep_of_mem_splitOnChar (sep : Char) (t : List Char) :
    ∀ l ∈ splitOnChar sep t, sep ∉ l := by
  induction t with
  | nil => intro l hl; simp [splitOnChar] at hl; simp [hl]
  | cons c rest ih =>
    intro l hl
    unfold splitOnChar at hl
    by_cases h : c = sep
    · simp only [h, if_true, List.mem_cons] at hl
      rcases hl with rfl | hl
      · simp
      · exact ih l hl
    · simp only [h, if_false] at hl
      obtain ⟨l₀, ls, hE⟩ := List.exists_cons_of_ne_nil (splitOnChar_ne_nil sep rest)
      rw [hE] at hl
      rcases List.mem_cons.mp hl with rfl | hl
      · intro hmem
        rcases List.mem_cons.mp hmem with rfl | hmem
        · exact h rfl
        · exact ih l₀ (hE ▸ List.mem_cons_self l₀ ls) hmem
      · exact ih l (hE ▸ List.mem_cons_of_mem l₀ hl)

theorem splitOnChar_of_not_mem (sep : Char) (x : List Char) (h : sep ∉ x) :
    splitOnChar sep x = [x] := by
  induction x with
  | nil => rfl
  | cons c rest ih =>
    have hc : ¬(c = sep) := fun hh => h (hh ▸ List.mem_cons_self c rest)
    have hrest : sep ∉ rest := fun hh => h (List.mem_cons_of_mem c hh)
    unfold splitOnChar
    simp only [hc, if_false, ih hrest]

theorem splitOnChar_append_sep (sep : Char) (x b : List Char) (h : sep ∉ x) :
    splitOnChar sep (x ++ sep :: b) = x :: splitOnChar sep b := by
  induction x with
  | nil => simp [splitOnChar]
  | cons c rest ih =>
    have hc : ¬(c = sep) := fun hh => h (hh ▸ List.mem_cons_self c rest)
    have hrest : sep ∉ rest := fun hh => h (List.mem_cons_of_mem c hh)
    rw [List.cons_append]
    conv_lhs => unfold splitOnChar
    simp only [hc, if_false, ih hrest]

theorem splitOnChar_joinWith (sep : Char) (ls : List (List Char))
    (hnl : ∀ x ∈ ls, sep ∉ x) (hne : ls ≠ []) :
    splitOnChar sep (joinWith sep ls) = ls := by
  induction ls with
  | nil => exact absurd rfl hne
  | cons x rest ih =>
    cases rest with
    | nil =>
      simp only [joinWith]
      exact splitOnChar_of_not_mem sep x (hnl x (List.mem_cons_self x []))
    | cons y ys =>
      simp only [joinWith]
      rw [splitOnChar_append_sep sep x _ (hnl x (List.mem_cons_self x (y :: ys)))]
      rw [ih (fun z hz => hnl z (List.mem_cons_of_mem x hz)) (by simp)]

theorem dropWhile_idem (p : Char → Bool) (l : List Char) :
    (l.dropWhile p).dropWhile p = l.dropWhile p := by
  induction l with
  | nil => rfl
  | cons c rest ih =>
    by_cases h : p c
    · simp only [List.dropWhile_cons, h, if_true, ih]
    · simp only [List.dropWhile_cons, h, if_false, Bool.false_eq_true]

theorem dropWhile_head_false (p : Char → Bool) (l : List Char) (c : Char)
    (t : List Char) (h : l.dropWhile p = c :: t) : p c = false := by
  induction l with
  | nil => simp at h
  | cons c₀ rest ih =>
    rw [List.dropWhile_cons] at h
    by_cases hc : p c₀
    · simp only [hc, if_true] at h; exact ih h
    · simp only [hc, if_false] at h
      cases h
      exact Bool.not_eq_true _ |>.mp hc

theorem dropTrail_append (l : List Char) : ∃ r, l = dropTrail l ++ r := by
  obtain ⟨r, hr⟩ := List.dropWhile_suffix (l := l.reverse) pyIsSpace
  refine ⟨r.reverse, ?_⟩
  have := congrArg List.reverse hr
  simpa [dropTrail] using this.symm

theorem dropTrail_idem (l : List Char) : dropTrail (dropTrail l) = dropTrail l := by
  simp [dropTrail, dropWhile_idem]

theorem pyStrip_idem (l : List Char) : pyStrip (pyStrip l) = pyStrip l := by
  have hA : (pyStrip l).dropWhile pyIsSpace = pyStrip l := by
    unfold pyStrip
    cases hE : dropTrail (l.dropWhile pyIsSpace) with
    | nil => rfl
    | cons c t =>
      obtain ⟨r, hr⟩ := dropTrail_append (l.dropWhile pyIsSpace)
      rw [hE] at hr
      have hr' : l.dropWhile pyIsSpace = c :: (t ++ r) := by
        have hdw := dropWhile_idem pyIsSpace l
        calc l.dropWhile pyIsSpace = (c :: t) ++ r := hr
        _ = c :: (t ++ r) := by simp
      have hc : pyIsSpace c = false := dropWhile_head_false pyIsSpace l c (t ++ r) hr'
      simp [List.dropWhile_cons, hc]
  unfold pyStrip at hA ⊢
  rw [hA, dropTrail_idem]

theorem pyStrip_sublist (l : List Char) : List.Sublist (pyStrip l) l := by
  unfold pyStrip dropTrail
  have h1 : List.Sublist ((l.dropWhile pyIsSpace).reverse.dropWhile pyIsSpace)
      (l.dropWhile pyIsSpace).reverse := List.dropWhile_sublist pyIsSpace
  have h2 := h1.reverse
  simp only [List.reverse_reverse] at h2
  exact h2.trans (List.dropWhile_sublist pyIsSpace)

theorem not_mem_pyStrip (c : Char) (l : List Char) (h : c ∉ l) : c ∉ pyStrip l :=
  fun hmem => h ((pyStrip_sublist l).mem hmem)

/-- Every list is a boolean prefix of itself followed by anything. -/
theorem isPrefixOf_self_append (a b : List Char) : a.isPrefixOf (a ++ b) = true := by
  induction a with
  | nil => simp [List.isPrefixOf]
  | cons c rest ih => simp [List.isPrefixOf, ih]

/-- The empty string occurs in every string. -/
theorem isSubOf_nil (hay : List Char) : isSubOf [] hay = true := by
  cases hay with
  | nil => rfl
  | cons c rest => simp [isSubOf, List.isPrefixOf]

/-- Any list occurs as a substring of a surrounding concatenation. -/
theorem isSubOf_append (name a b : List Char) : isSubOf name (a ++ (name ++ b)) = true := by
  induction a with
  | nil =>
    cases name with
    | nil => exact isSubOf_nil _
    | cons c rest =>
      simp only [List.nil_append, List.cons_append, isSubOf, List.append_eq]
      rw [← List.cons_append, isPrefixOf_self_append]
      simp
  | cons c rest ih =>
    simp only [List.cons_append, isSubOf, List.append_eq]
    rw [ih]
    simp

/-! Concrete environments used to instantiate theorems and to exhibit
counterexamples.  `wErr` is the world where every network interaction
raises (and Playwright is absent); the other worlds override single
oracles with specific well-formed responses. -/

/-- The default configuration values of src/main.py:32-36. -/
def cfg0 : Config := {
  enable := true
  maxLen := 2000
  tmplPre := "\n【以下是链接的具体内容，请参考该内容进行回答】：\n".data
  tmplPost := "\n".data }

/-- World in which every oracle raises and Playwright is unavailable. -/
def wErr : World := {
  headRedirect := fun _ => .error []
  neteaseGet := fun _ => .error []
  qqGet := fun _ => .error []
  kuwoGet := fun _ => .error []
  kugouGet := fun _ => .error []
  titleFetch := fun _ => .error []
  searchGet := fun _ => .error []
  lyricPageGet := fun _ => .error []
  pageContent := fun _ => .error []
  pageShot := fun _ => .error []
  browserClose := .error []
  genericGet := fun _ => .error []
  soupText := fun _ => []
  soupTextXhs := fun _ => []
  hasPlaywright := false }

/-- A 2100-character lyric line returned by the Kuwo endpoint. -/
def longLyric : List Char := List.replicate 2100 'a'

/-- World where the Kuwo lyric endpoint returns one very long line. -/
def wKuwoLong : World := { wErr with kuwoGet := fun _ => .ok [longLyric] }

/-- World where the Kuwo endpoint returns a line still carrying a raw
timestamp tag. -/
def wKuwoTag : World := { wErr with kuwoGet := fun _ => .ok ["[00:01.00]Hello".data] }

/-- World realizing the spec's Netease scenario: the lyric endpoint answers
200 with `lrc.lyric = "[00:01.00]Hello\n[00:02.00]World"` and no
translation. -/
def wNeteaseHello : World :=
  { wErr with neteaseGet := fun _ => .ok (200, .ok ("[00:01.00]Hello\n[00:02.00]World".data, [])) }

/-- World where the Netease endpoint answers 200 with an empty lyric field,
the title probe succeeds and the fallback search finds no result link. -/
def wNeteaseEmpty : World := { wErr with
  neteaseGet := fun _ => .ok (200, .ok ([], []))
  titleFetch := fun _ => .ok (some "Test - QQ音乐".data)
  searchGet := fun _ => .ok (200, none) }

/-- World where the generic fetch succeeds with a one-character body (which
the cleaner then discards entirely). -/
def wGenShort : World := { wErr with genericGet := fun _ => .ok "x".data }

/-- A Kuwo song url carrying a `mid=` id. -/
def kuwoUrl : List Char := "https://kuwo.cn/song?mid=5".data

/-! Non-emptiness of every music-path result. -/

theorem append_ne_nil_left (h t : List Char) (hh : h ≠ []) : h ++ t ≠ [] :=
  fun hc => hh (List.append_eq_nil.mp hc).1

theorem notFoundMsg_ne_nil (n : List Char) : notFoundMsg n ≠ [] := by
  unfold notFoundMsg
  exact append_ne_nil_left _ _ (append_ne_nil_left _ _ (by decide))

theorem foundMsg_ne_nil (n c : List Char) : foundMsg n c ≠ [] := by
  unfold foundMsg
  exact append_ne_nil_left _ _
    (append_ne_nil_left _ _ (append_ne_nil_left _ _ (by decide)))

theorem fallback_result_ne_nil (w : World) (topt : Option (List Char)) :
    _fallback_result w topt ≠ [] := by
  unfold _fallback_result
  split
  · split
    · exact notFoundMsg_ne_nil _
    · exact foundMsg_ne_nil _ _
  · exact notFoundMsg_ne_nil _

theorem fallback_ne_nil (w : World) (url : List Char) :
    _fallback_xiaojiang_search w url ≠ [] := by
  unfold _fallback_xiaojiang_search
  split
  · rename_i s hb
    unfold _fallback_body at hb
    split at hb
    · cases hb
    · rename_i topt ht
      cases hb
      exact fallback_result_ne_nil w topt
  · exact (by decide : failMsg ≠ [])

theorem branches_some_ne_nil (w : World) (fu s : List Char)
    (h : _music_branches w fu = .ok (some s)) : s ≠ [] := by
  unfold _music_branches at h
  split at h
  · unfold _netease_branch at h
    split at h
    · cases h
    · split at h
      · cases h
      · split at h
        · split at h
          · cases h
          · split at h
            · cases h
            · cases h
              exact append_ne_nil_left _ _ (append_ne_nil_left _ _ (by decide))
        · cases h
  · split at h
    · unfold _qq_branch at h
      split at h
      · cases h
      · split at h
        · cases h
        · cases h
        · split at h
          · cases h
          · cases h
            exact append_ne_nil_left _ _ (by decide)
    · split at h
      · unfold _kuwo_branch at h
        split at h
        · cases h
        · split at h
          · cases h
          · split at h
            · cases h
            · cases h
              exact append_ne_nil_left _ _ (by decide)
      · split at h
        · unfold _kugou_branch at h
          split at h
          · cases h
          · split at h
            · cases h
            · cases h
        · cases h

theorem handle_ne_nil (w : World) (url : List Char) :
    _handle_music_direct_api w url ≠ [] := by
  unfold _handle_music_direct_api
  split
  · exact fallback_ne_nil w url
  · split
    · exact fallback_ne_nil w url
    · rename_i s heq
      exact branches_some_ne_nil w _ s heq
    · exact fallback_ne_nil w _

/-! Claim theorems. -/

/-- Claim C3: for every configuration, environment (including any failure of
any sub-strategy: the oracles may return `.error` everywhere) and url, the
resolution entry point returns normally with a payload — no exception
escapes `_fetch_url_content`. -/
theorem claim3_resolve_total (cfg : Config) (w : World) (url : List Char) :
    ∃ p, _fetch_url_content cfg w url = .ok p := by
  unfold _fetch_url_content _generic_fetch
  split
  · exact ⟨_, rfl⟩
  · split
    · exact ⟨_, rfl⟩
    · split
      · exact ⟨_, rfl⟩
      · exact ⟨_, rfl⟩
  · split
    · exact ⟨_, rfl⟩
    · exact ⟨_, rfl⟩

/-- Claim C2 (amended): for every music-category url the payload text is
non-empty — every branch of the music pipeline ends in a formatted lyric, a
found/not-found message, or the failure sentinel.  (The original claim
extended non-emptiness to all urls; the generic `_clean_text` path can
return the empty string, see the counterexample.) -/
theorem claim2_music_text_ne_nil (cfg : Config) (w : World) (url t : List Char)
    (img : Option (List Char)) (hm : _is_music_site url = true)
    (hf : _fetch_url_content cfg w url = .ok (t, img)) : t ≠ [] := by
  have hcls : classifyCategory w.hasPlaywright url = .music := by
    simp [classifyCategory, hm]
  unfold _fetch_url_content at hf
  rw [hcls] at hf
  cases hf
  exact handle_ne_nil w url

/-- Witness for C2: a concrete music url in the all-failing world yields the
non-empty failure sentinel. -/
theorem claim2_witness : failMsg ≠ [] :=
  claim2_music_text_ne_nil cfg0 wErr "https://music.163.com/x".data failMsg none
    (by decide) (by rfl)

/-- Counterexample refuting C2 as stated: a generic page whose only line is
one character long is cleaned down to the EMPTY string, which is returned
as the payload text — there is no "no content" sentinel on this path (the
hook merely skips injection afterwards). -/
theorem claim2_counterexample :
    resolvedText cfg0 wGenShort "https://example.org/a".data = [] := by decide

/-- Claim C6: the headless render either returns both the html and the
screenshot or neither: the pair is `(none, none)` when Playwright is
missing and whenever any step of the body raises, and otherwise both
components are present. -/
theorem claim6_screenshot_atomic (w : World) (url : List Char) :
    (_get_screenshot_and_content w url = (none, none) ∨
      ∃ h s, _get_screenshot_and_content w url = (some h, some s)) ∧
    (w.hasPlaywright = false → _get_screenshot_and_content w url = (none, none)) ∧
    (∀ e, _screenshot_body w url = .error e →
      _get_screenshot_and_content w url = (none, none)) := by
  refine ⟨?_, ?_, ?_⟩
  · unfold _get_screenshot_and_content
    cases hpw : w.hasPlaywright with
    | false => left; rfl
    | true =>
      simp only [if_true]
      cases hb : _screenshot_body w url with
      | error e => left; rfl
      | ok pr => right; exact ⟨pr.1, pr.2, rfl⟩
  · intro hpw
    unfold _get_screenshot_and_content
    rw [hpw]
    rfl
  · intro e hb
    unfold _get_screenshot_and_content
    cases hpw : w.hasPlaywright with
    | false => rfl
    | true => simp only [if_true]; rw [hb]

/-- Witness for C6: in the Playwright-less world the render returns
`(none, none)`. -/
theorem claim6_witness :
    _get_screenshot_and_content wErr "https://example.org/a".data = (none, none) :=
  (claim6_screenshot_atomic wErr "https://example.org/a".data).2.1 rfl

/-- Claim C7 (amended): classification is a deterministic pure function of
the url string, and it is determined by the host TOGETHER WITH the
full-url music test: two urls with the same host and the same
`_is_music_site` value get the same category.  (The original claim made it
a function of the host alone; the music test scans the whole url, see the
counterexample.) -/
theorem claim7_classify_host (pw : Bool) (u1 u2 : List Char)
    (hn : pyNetloc u1 = pyNetloc u2)
    (hm : _is_music_site u1 = _is_music_site u2) :
    classifyCategory pw u1 = classifyCategory pw u2 := by
  unfold classifyCategory
  rw [hm, hn]

/-- Witness for C7: two urls on the same non-music host classify alike. -/
theorem claim7_witness :
    classifyCategory true "https://a.com/x".data = classifyCategory true "https://a.com/y".data :=
  claim7_classify_host true _ _ (by decide) (by decide)

/-- Counterexample refuting C7 as stated: the music test is a substring
check over the FULL url, so two urls with the same host (`example.com`)
fall in different categories when one merely mentions a music domain in its
query string. -/
theorem claim7_counterexample :
    pyNetloc "https://example.com/a".data =
      pyNetloc "https://example.com/?x=music.163.com".data ∧
    classifyCategory true "https://example.com/a".data ≠
      classifyCategory true "https://example.com/?x=music.163.com".data := by
  constructor
  · decide
  · decide

/-- A Netease song url carrying an `id=` parameter. -/
def neteaseUrl : List Char := "https://music.163.com/song?id=1234".data

/-- Counterexample refuting C1 as stated: with the default configuration
(`maxContentLength = 2000`), a music url whose lyric endpoint returns a
2100-character line yields a payload text of length 2110 — the music path
performs no truncation, so the bound `maxLen + len(marker)` fails. -/
theorem claim1_counterexample :
    cfg0.maxLen + tMark.length < (resolvedText cfg0 wKuwoLong kuwoUrl).length := by
  have hfetch : _fetch_url_content cfg0 wKuwoLong kuwoUrl =
      .ok ("【酷我音乐解析】\n\n".data ++ joinNl [longLyric], none) := by rfl
  have hres : resolvedText cfg0 wKuwoLong kuwoUrl =
      "【酷我音乐解析】\n\n".data ++ joinNl [longLyric] := by
    unfold resolvedText
    rw [hfetch]
  rw [hres]
  have hj : joinNl [longLyric] = longLyric := rfl
  rw [hj, List.length_append]
  have h1 : ("【酷我音乐解析】\n\n".data).length = 10 := by decide
  have h2 : tMark.length = 12 := by decide
  have h3 : cfg0.maxLen = 2000 := rfl
  rw [h1, h2, h3]
  have h4 : longLyric.length = 2100 := by
    rw [show longLyric = List.replicate 2100 'a' from rfl, List.length_replicate]
  rw [h4]
  omega

set_option maxRecDepth 100000 in
/-- Counterexample refuting C4 as stated: the Kuwo branch joins the raw
`lineLyric` strings with no lyric filtering, so a Kuwo response carrying a
raw `[00:01.00]` tag reaches the final payload text verbatim. -/
theorem claim4_counterexample :
    hasTsTag (resolvedText cfg0 wKuwoTag kuwoUrl) = true := by decide

set_option maxRecDepth 100000 in
/-- Claim C4 (amended): on the branches that run lyrics through
`_filter_lyrics` the timestamp tags are stripped — in the spec's Netease
scenario (`lrc.lyric = "[00:01.00]Hello\n[00:02.00]World"`) the payload
text is exactly the formatted `Hello`/`World` lines, contains both words,
and contains no timestamp tag.  (The Kuwo branch joins `lineLyric` fields
verbatim, see the counterexample.) -/
theorem claim4_netease_scenario :
    resolvedText cfg0 wNeteaseHello neteaseUrl = "【网易云解析】\n\nHello\nWorld".data ∧
    isSubOf "Hello".data (resolvedText cfg0 wNeteaseHello neteaseUrl) = true ∧
    isSubOf "World".data (resolvedText cfg0 wNeteaseHello neteaseUrl) = true ∧
    hasTsTag (resolvedText cfg0 wNeteaseHello neteaseUrl) = false := by
  refine ⟨by decide, by decide, by decide, by decide⟩

/-- Claim C5: when the Netease lyric endpoint answers successfully (status
200) but with an EMPTY lyric field, the direct strategy falls through to
the xiaojiang fallback search; when the search also finds no result link,
the final payload text is the not-found message, which references the
derived keyword and is never empty. -/
theorem claim5_empty_lyric_fallback (cfg : Config) (w : World)
    (url sid tl title : List Char)
    (h1 : shortLinkDomains.any (fun d => isSubOf d url) = false)
    (h2 : isSubOf "music.163.com".data url = true)
    (h3 : neteaseId url = some sid)
    (h4 : w.neteaseGet sid = .ok (200, .ok ([], tl)))
    (h5 : w.titleFetch url = .ok (some title))
    (h6 : w.searchGet (_fallback_keyword (some title)) = .ok (200, none)) :
    _fetch_url_content cfg w url =
      .ok (notFoundMsg (_fallback_keyword (some title)), none) ∧
    notFoundMsg (_fallback_keyword (some title)) ≠ [] ∧
    isSubOf (_fallback_keyword (some title))
      (notFoundMsg (_fallback_keyword (some title))) = true := by
  have hm : _is_music_site url = true := by
    unfold _is_music_site
    exact List.any_eq_true.mpr ⟨"music.163.com".data, by decide, h2⟩
  have hcls : classifyCategory w.hasPlaywright url = .music := by
    simp [classifyCategory, hm]
  have hbr : _music_branches w url = .ok none := by
    simp [_music_branches, _netease_branch, h2, h3, h4]
  have hsearch : _search_xiaojiang w (_fallback_keyword (some title)) = none := by
    simp [_search_xiaojiang, h6]
  have hfb : _fallback_xiaojiang_search w url =
      notFoundMsg (_fallback_keyword (some title)) := by
    simp [_fallback_xiaojiang_search, _fallback_body, h5, _fallback_result, hsearch]
  have hhandle : _handle_music_direct_api w url =
      notFoundMsg (_fallback_keyword (some title)) := by
    have hrs : _resolve_short w url = .ok url := by
      simp [_resolve_short, h1]
    simp only [_handle_music_direct_api, hrs, hbr]
    exact hfb
  refine ⟨?_, notFoundMsg_ne_nil _, ?_⟩
  · simp only [_fetch_url_content, hcls, hhandle]
  · unfold notFoundMsg
    rw [List.append_assoc]
    exact isSubOf_append _ _ _

/-- Witness for C5 at concrete inputs: empty Netease lyric for id 1, page
title `Test - QQ音乐` (keyword `Test`), fallback search without a hit. -/
theorem claim5_witness :
    _fetch_url_content cfg0 wNeteaseEmpty "https://music.163.com/song?id=1".data =
      .ok (notFoundMsg (_fallback_keyword (some "Test - QQ音乐".data)), none) ∧
    notFoundMsg (_fallback_keyword (some "Test - QQ音乐".data)) ≠ [] ∧
    isSubOf (_fallback_keyword (some "Test - QQ音乐".data))
      (notFoundMsg (_fallback_keyword (some "Test - QQ音乐".data))) = true :=
  claim5_empty_lyric_fallback cfg0 wNeteaseEmpty
    "https://music.163.com/song?id=1".data "1".data [] "Test - QQ音乐".data
    (by decide) (by decide) (by decide) (by rfl) (by rfl) (by rfl)

theorem joinNl_splitNl (t : List Char) : joinNl (splitNl t) = t :=
  joinWith_splitOnChar '\n' t

theorem splitNl_joinNl (ls : List (List Char)) (h : ∀ x ∈ ls, '\n' ∉ x)
    (hne : ls ≠ []) : splitNl (joinNl ls) = ls :=
  splitOnChar_joinWith '\n' ls h hne

/-- Claim C8 (amended): `_clean_text` is the identity on already-cleaned
text that FITS WITHIN the length bound — every line stripped, non-empty, of
length at least 2 and free of denylist substrings, and the whole text at
most `maxLen` characters long.  (Without the length bound the claim fails:
truncation rewrites long already-clean text, see the counterexample.) -/
theorem claim8_clean_idem (maxLen : Nat) (t : List Char)
    (hlines : ∀ l ∈ splitNl t, pyStrip l = l ∧ l ≠ [] ∧ 2 ≤ l.length ∧
      ∀ b ∈ blacklist, isSubOf b l = false)
    (hlen : t.length ≤ maxLen) :
    _clean_text maxLen t = t := by
  have hmap : (splitNl t).map pyStrip = splitNl t := by
    have h := List.map_congr_left (l := splitNl t) (f := pyStrip) (g := id)
      (fun a ha => (hlines a ha).1)
    simpa using h
  have hfilt : (splitNl t).filter keepLine = splitNl t := by
    apply List.filter_eq_self.mpr
    intro l hl
    obtain ⟨-, hne, hlen2, hbl⟩ := hlines l hl
    simp only [keepLine, Bool.not_eq_true', Bool.or_eq_false_iff]
    refine ⟨⟨?_, ?_⟩, ?_⟩
    · exact List.isEmpty_eq_false.mpr hne
    · simp only [decide_eq_false_iff_not, Nat.not_lt]
      exact hlen2
    · exact List.any_eq_false.mpr (fun b hb => by simp [hbl b hb])
  unfold _clean_text
  rw [hmap, hfilt, joinNl_splitNl]
  simp [truncateMarked, Nat.not_lt.mpr hlen]

/-- Witness for C8: a concrete two-line clean text within the bound is
returned unchanged. -/
theorem claim8_witness : _clean_text 100 "hello\nworld".data = "hello\nworld".data :=
  claim8_clean_idem 100 "hello\nworld".data (by decide) (by decide)

/-- Counterexample refuting C8 as stated: `abcde` satisfies every
"already-cleaned" condition of the claim (one stripped line, length 5 ≥ 2,
no denylist substring), yet with `maxContentLength = 3` the cleaner
truncates it and appends the marker instead of returning it unchanged. -/
theorem claim8_counterexample :
    (∀ l ∈ splitNl "abcde".data, pyStrip l = l ∧ l ≠ [] ∧ 2 ≤ l.length ∧
      ∀ b ∈ blacklist, isSubOf b l = false) ∧
    _clean_text 3 "abcde".data ≠ "abcde".data := by
  constructor
  · decide
  · decide

/-- Counterexample refuting C9 as stated: interior whitespace runs survive
`_clean_text` — the input `ab  cd` (two interior spaces) is returned
verbatim, and its single output line still contains the two consecutive
spaces. -/
theorem claim9_counterexample :
    _clean_text 100 "ab  cd".data = "ab  cd".data ∧
    isSubOf "  ".data (_clean_text 100 "ab  cd".data) = true := by
  constructor
  · decide
  · decide

/-- Claim C9 (amended): `_clean_text` strips the leading and trailing
whitespace of every line (each untruncated output line is one of the
stripped kept input lines and is itself strip-fixed), but it does NOT
collapse interior whitespace runs — see the counterexample. -/
theorem claim9_lines_stripped (maxLen : Nat) (t l : List Char)
    (hlen : (_clean_text maxLen t).length ≤ maxLen)
    (hmem : l ∈ splitNl (_clean_text maxLen t)) :
    pyStrip l = l := by
  have htm : tMark.length = 12 := by decide
  by_cases hc : maxLen < (joinNl (((splitNl t).map pyStrip).filter keepLine)).length
  · exfalso
    have hL : (_clean_text maxLen t).length = maxLen + tMark.length := by
      unfold _clean_text truncateMarked
      rw [if_pos hc, List.length_append, List.length_take,
        Nat.min_eq_left (Nat.le_of_lt hc)]
    omega
  · have hout : _clean_text maxLen t =
        joinNl (((splitNl t).map pyStrip).filter keepLine) := by
      unfold _clean_text truncateMarked
      rw [if_neg hc]
    rw [hout] at hmem
    by_cases hne : ((splitNl t).map pyStrip).filter keepLine = []
    · rw [hne] at hmem
      have : splitNl (joinNl ([] : List (List Char))) = [[]] := rfl
      rw [this] at hmem
      rw [List.mem_singleton.mp hmem]
      rfl
    · have hnonl : ∀ x ∈ ((splitNl t).map pyStrip).filter keepLine, '\n' ∉ x := by
        intro x hx
        obtain ⟨y, hy, hxy⟩ := List.mem_map.mp (List.mem_filter.mp hx).1
        rw [← hxy]
        exact not_mem_pyStrip _ _ (not_sep_of_mem_splitOnChar '\n' t y hy)
      rw [splitNl_joinNl _ hnonl hne] at hmem
      obtain ⟨y, hy, hxy⟩ := List.mem_map.mp (List.mem_filter.mp hmem).1
      rw [← hxy, pyStrip_idem]

/-- Witness for C9: on a concrete input with padded lines, an output line is
strip-fixed. -/
theorem claim9_witness : pyStrip "hi".data = "hi".data :=
  claim9_lines_stripped 100 " hi \nyo".data "hi".data (by decide) (by decide)

/-- Claim C10: frame properties of the `on_llm_request` hook.  The prompt is
unchanged when the plugin is disabled, when no url is found in the message,
or when the extracted content is empty (even if a screenshot came back);
whenever the hook answers, the original prompt is a prefix of the new one;
and when injection happens the formatted content is appended, with the
base64 image block appended after it exactly when a screenshot accompanied
the non-empty content. -/
theorem claim10_hook_frame (cfg : Config) (w : World)
    (findall : List Char → List (List Char)) (msg prompt : List Char) :
    (cfg.enable = false → on_llm_request cfg w findall msg prompt = .ok prompt) ∧
    (findall msg = [] → on_llm_request cfg w findall msg prompt = .ok prompt) ∧
    (∀ url rest img, findall msg = url :: rest →
      _fetch_url_content cfg w url = .ok ([], img) →
      on_llm_request cfg w findall msg prompt = .ok prompt) ∧
    (∀ p', on_llm_request cfg w findall msg prompt = .ok p' →
      prompt.isPrefixOf p' = true) ∧
    (∀ url rest t, findall msg = url :: rest → cfg.enable = true →
      _fetch_url_content cfg w url = .ok (t, none) → t ≠ [] →
      on_llm_request cfg w findall msg prompt =
        .ok (prompt ++ cfg.tmplPre ++ t ++ cfg.tmplPost)) ∧
    (∀ url rest t s, findall msg = url :: rest → cfg.enable = true →
      _fetch_url_content cfg w url = .ok (t, some s) → t ≠ [] →
      on_llm_request cfg w findall msg prompt =
        .ok (prompt ++ cfg.tmplPre ++ t ++ cfg.tmplPost ++ imgPre ++ s)) := by
  have hself : ∀ a b : List Char, a.isPrefixOf (a ++ b) = true := isPrefixOf_self_append
  have hrefl : ∀ a : List Char, a.isPrefixOf a = true := by
    intro a
    have h := isPrefixOf_self_append a []
    rwa [List.append_nil] at h
  refine ⟨?_, ?_, ?_, ?_, ?_, ?_⟩
  · intro h
    simp [on_llm_request, h]
  · intro h
    by_cases he : cfg.enable
    · simp [on_llm_request, he, h]
    · simp [on_llm_request, he]
  · intro url rest img hf hfetch
    by_cases he : cfg.enable
    · simp [on_llm_request, he, hf, hfetch]
    · simp [on_llm_request, he]
  · intro p' h
    unfold on_llm_request at h
    by_cases he : cfg.enable
    · rw [if_pos he] at h
      cases hfa : findall msg with
      | nil =>
        rw [hfa] at h
        cases h
        exact hrefl prompt
      | cons url rest =>
        rw [hfa] at h
        dsimp only at h
        cases hfetch : _fetch_url_content cfg w url with
        | error e => rw [hfetch] at h; cases h
        | ok pr =>
          rw [hfetch] at h
          obtain ⟨content, shot⟩ := pr
          by_cases hce : content.isEmpty
          · simp only [hce, if_true] at h
            cases h
            exact hrefl prompt
          · simp only [hce, Bool.false_eq_true, ite_false] at h
            cases shot with
            | none =>
              simp only [Except.ok.injEq] at h
              rw [← h]
              simp only [List.append_assoc]
              exact hself prompt _
            | some s =>
              simp only [Except.ok.injEq] at h
              rw [← h]
              simp only [List.append_assoc]
              exact hself prompt _
    · rw [if_neg he] at h
      cases h
      exact hrefl prompt
  · intro url rest t hf he hfetch hne
    simp [on_llm_request, he, hf, hfetch, List.isEmpty_eq_false.mpr hne]
  · intro url rest t s hf he hfetch hne
    simp [on_llm_request, he, hf, hfetch, List.isEmpty_eq_false.mpr hne]

/-- Witness for C10: with no url in the message the prompt is unchanged. -/
theorem claim10_witness :
    on_llm_request cfg0 wErr (fun _ => []) [] "p".data = .ok "p".data :=
  (claim10_hook_frame cfg0 wErr (fun _ => []) [] "p".data).2.1 rfl

end LinkReader
